import Mathlib

/-!
Verification of the yaqub SQL statement builder against its specification.

The Rust source is shallowly embedded: each builder family wraps a plain
record, every builder method becomes a pure function on that record, and
every Display implementation becomes a toText function producing a String.
Staged-builder call sequences are embedded as inductive program types whose
constructors are exactly the methods available on the corresponding stage
type, with one runner function per stage interpreting a program over the
underlying record.
-/

namespace Yaqub

/-! ## SELECT query model (src/query/select.rs) -/

inductive SortOrder where
  | Asc
  | Desc
deriving DecidableEq

def sortOrderText : SortOrder → String
  | .Asc => "ASC"
  | .Desc => "DESC"

/-- SortBy(String, SortOrder) rendered as field, space, direction. -/
def sortByText (sb : String × SortOrder) : String :=
  sb.1 ++ " " ++ sortOrderText sb.2

/-- The private RawQuery record shared by all SELECT builder stages. -/
structure RawQuery where
  select : String
  from_ : String
  sort_by : List (String × SortOrder)
  group_by : String
  having : String
  where_ : String
  distinct : Bool
  limit : Option String
  offset : Option String
deriving DecidableEq

/-- RawQuery::new with all clauses empty or absent. -/
def RawQuery.init : RawQuery :=
  { select := "", from_ := "", sort_by := [], group_by := "", having := "",
    where_ := "", distinct := false, limit := none, offset := none }

/-- String slice join, mirroring join(sep) on a vector of strings. -/
def joinSep : List String → String → String
  | [], _ => ""
  | [x], _ => x
  | x :: y :: rest, sep => x ++ sep ++ joinSep (y :: rest) sep

/-- Entry point select(fields): comma-joined projection text. -/
def select (fields : List String) : RawQuery :=
  { RawQuery.init with select := joinSep fields ", " }

/-- SelectQuery::from. -/
def fromSet (q : RawQuery) (table : String) : RawQuery :=
  { q with from_ := table }

/-- SelectQuery::distinct. -/
def distinctSet (q : RawQuery) : RawQuery :=
  { q with distinct := true }

/-- SelectQuery::limit: Some(v) stores its decimal text, None stores a placeholder. -/
def limitSet (q : RawQuery) (value : Option Nat) : RawQuery :=
  { q with limit := some (match value with | some v => toString v | none => "?") }

/-- SelectQuery::offset: Some(v) stores its decimal text, None stores a placeholder. -/
def offsetSet (q : RawQuery) (value : Option Nat) : RawQuery :=
  { q with offset := some (match value with | some v => toString v | none => "?") }

/-- SelectQuery::where_. -/
def whereSet (q : RawQuery) (cond : String) : RawQuery :=
  { q with where_ := cond }

/-- WhereQuery::and. -/
def whereAnd (q : RawQuery) (cond : String) : RawQuery :=
  { q with where_ := q.where_ ++ " AND " ++ cond }

/-- WhereQuery::or. -/
def whereOr (q : RawQuery) (cond : String) : RawQuery :=
  { q with where_ := q.where_ ++ " OR " ++ cond }

/-- group_by(fields): comma-joined group text. -/
def groupBySet (q : RawQuery) (fields : List String) : RawQuery :=
  { q with group_by := joinSep fields ", " }

/-- GroupQuery::having. -/
def havingSet (q : RawQuery) (cond : String) : RawQuery :=
  { q with having := cond }

/-- HavingQuery::and. -/
def havingAnd (q : RawQuery) (cond : String) : RawQuery :=
  { q with having := q.having ++ " AND " ++ cond }

/-- HavingQuery::or. -/
def havingOr (q : RawQuery) (cond : String) : RawQuery :=
  { q with having := q.having ++ " OR " ++ cond }

/-- order_by(field): append a new ascending sort key. -/
def orderByPush (q : RawQuery) (field : String) : RawQuery :=
  { q with sort_by := q.sort_by ++ [(field, SortOrder.Asc)] }

/-- last_mut mutation used by asc and desc: set the direction of the last key, if any. -/
def setLastDir : List (String × SortOrder) → SortOrder → List (String × SortOrder)
  | [], _ => []
  | [x], d => [(x.1, d)]
  | x :: y :: rest, d => x :: setLastDir (y :: rest) d

/-- OrderByQuery::asc. -/
def ascLast (q : RawQuery) : RawQuery :=
  { q with sort_by := setLastDir q.sort_by SortOrder.Asc }

/-- OrderByQuery::desc. -/
def descLast (q : RawQuery) : RawQuery :=
  { q with sort_by := setLastDir q.sort_by SortOrder.Desc }

/-- Display for RawQuery: the fixed-order clause emitter. -/
def RawQuery.toText (q : RawQuery) : String :=
  "SELECT"
  ++ (if q.distinct then " DISTINCT" else "")
  ++ " " ++ q.select
  ++ " FROM " ++ q.from_
  ++ (if q.where_ = "" then "" else " WHERE " ++ q.where_)
  ++ (if q.group_by = "" then "" else " GROUP BY " ++ q.group_by)
  ++ (if q.having = "" then "" else " HAVING " ++ q.having)
  ++ (if q.sort_by = [] then "" else " ORDER BY " ++ joinSep (q.sort_by.map sortByText) ", ")
  ++ (match q.limit with | some l => " LIMIT " ++ l | none => "")
  ++ (match q.offset with | some o => " OFFSET " ++ o | none => "")

/-! Staged call sequences. A value of each Prog type is a sequence of method
calls legal from the corresponding stage type; `done` renders at that point.
OrderByQuery only reaches itself, HavingQuery reaches OrderByQuery, and so on,
so the program types nest without mutual recursion. -/

inductive OrderProg where
  | done
  | asc (k : OrderProg)
  | desc (k : OrderProg)
  | order_by (f : String) (k : OrderProg)

inductive HavingProg where
  | done
  | and (c : String) (k : HavingProg)
  | or (c : String) (k : HavingProg)
  | order_by (f : String) (k : OrderProg)

inductive GroupProg where
  | done
  | having (c : String) (k : HavingProg)
  | order_by (f : String) (k : OrderProg)

inductive WhereProg where
  | done
  | and (c : String) (k : WhereProg)
  | or (c : String) (k : WhereProg)
  | group_by (fs : List String) (k : GroupProg)
  | order_by (f : String) (k : OrderProg)

inductive SelProg where
  | done
  | from_ (t : String) (k : SelProg)
  | distinct (k : SelProg)
  | limit (v : Option Nat) (k : SelProg)
  | offset (v : Option Nat) (k : SelProg)
  | where_ (c : String) (k : WhereProg)
  | group_by (fs : List String) (k : GroupProg)
  | order_by (f : String) (k : OrderProg)

def runOrder : OrderProg → RawQuery → RawQuery
  | .done, q => q
  | .asc k, q => runOrder k (ascLast q)
  | .desc k, q => runOrder k (descLast q)
  | .order_by f k, q => runOrder k (orderByPush q f)

def runHaving : HavingProg → RawQuery → RawQuery
  | .done, q => q
  | .and c k, q => runHaving k (havingAnd q c)
  | .or c k, q => runHaving k (havingOr q c)
  | .order_by f k, q => runOrder k (orderByPush q f)

def runGroup : GroupProg → RawQuery → RawQuery
  | .done, q => q
  | .having c k, q => runHaving k (havingSet q c)
  | .order_by f k, q => runOrder k (orderByPush q f)

def runWhere : WhereProg → RawQuery → RawQuery
  | .done, q => q
  | .and c k, q => runWhere k (whereAnd q c)
  | .or c k, q => runWhere k (whereOr q c)
  | .group_by fs k, q => runGroup k (groupBySet q fs)
  | .order_by f k, q => runOrder k (orderByPush q f)

def runSel : SelProg → RawQuery → RawQuery
  | .done, q => q
  | .from_ t k, q => runSel k (fromSet q t)
  | .distinct k, q => runSel k (distinctSet q)
  | .limit v k, q => runSel k (limitSet q v)
  | .offset v k, q => runSel k (offsetSet q v)
  | .where_ c k, q => runWhere k (whereSet q c)
  | .group_by fs k, q => runGroup k (groupBySet q fs)
  | .order_by f k, q => runOrder k (orderByPush q f)

/-! Specification-side renderers for refinement comparison. -/

/-- Modelled from the claim wording for C1: every clause, the FROM clause
included, is omitted whenever its accumulated text is empty or absent. -/
def selectRenderPerClaim (q : RawQuery) : String :=
  (if q.select = "" then "" else
    "SELECT" ++ (if q.distinct then " DISTINCT" else "") ++ " " ++ q.select)
  ++ (if q.from_ = "" then "" else " FROM " ++ q.from_)
  ++ (if q.where_ = "" then "" else " WHERE " ++ q.where_)
  ++ (if q.group_by = "" then "" else " GROUP BY " ++ q.group_by)
  ++ (if q.having = "" then "" else " HAVING " ++ q.having)
  ++ (if q.sort_by = [] then "" else " ORDER BY " ++ joinSep (q.sort_by.map sortByText) ", ")
  ++ (match q.limit with | some l => " LIMIT " ++ l | none => "")
  ++ (match q.offset with | some o => " OFFSET " ++ o | none => "")

/-- The clauses a RawQuery renders, in the fixed SELECT, FROM, WHERE,
GROUP BY, HAVING, ORDER BY, LIMIT, OFFSET order; SELECT and FROM are always
present, the others only when their accumulated text is nonempty or set. -/
def selectClausesInOrder (q : RawQuery) : List String :=
  ["SELECT" ++ (if q.distinct then " DISTINCT" else "") ++ " " ++ q.select,
   " FROM " ++ q.from_]
  ++ (if q.where_ = "" then [] else [" WHERE " ++ q.where_])
  ++ (if q.group_by = "" then [] else [" GROUP BY " ++ q.group_by])
  ++ (if q.having = "" then [] else [" HAVING " ++ q.having])
  ++ (if q.sort_by = [] then [] else [" ORDER BY " ++ joinSep (q.sort_by.map sortByText) ", "])
  ++ (match q.limit with | some l => [" LIMIT " ++ l] | none => [])
  ++ (match q.offset with | some o => [" OFFSET " ++ o] | none => [])

/-- Concatenation of a list of strings in order. -/
def strConcat : List String → String
  | [] => ""
  | s :: rest => s ++ strConcat rest

/-! ## Column model (src/schema/column.rs) -/

inductive GeneratedColumnType where
  | Virtual
  | Stored
deriving DecidableEq

def genTypeText : GeneratedColumnType → String
  | .Stored => "STORED"
  | .Virtual => "VIRTUAL"

structure Generated where
  expr : String
  type_ : GeneratedColumnType
deriving DecidableEq

structure Column where
  name : String
  typ_ : String
  not_null : Bool
  unique : Bool
  primary_key : Bool
  check : Option String
  default_val : Option String
  generated : Option Generated
deriving DecidableEq

/-- Column::new: INTEGER type, not_null set, everything else off. -/
def Column.new (name : String) : Column :=
  { name := name, typ_ := "INTEGER", not_null := true, unique := false,
    primary_key := false, check := none, default_val := none, generated := none }

def colInt (c : Column) : Column := { c with typ_ := "INTEGER" }

def colReal (c : Column) : Column := { c with typ_ := "REAL" }

def colText (c : Column) : Column := { c with typ_ := "TEXT" }

def colBlob (c : Column) : Column := { c with typ_ := "BLOB" }

/-- Column::nullable clears not_null, primary_key and unique. -/
def colNullable (c : Column) : Column :=
  { c with not_null := false, primary_key := false, unique := false }

/-- Column::unique sets not_null and unique. -/
def colUnique (c : Column) : Column :=
  { c with not_null := true, unique := true }

/-- Column::primary_key sets not_null and primary_key. -/
def colPrimaryKey (c : Column) : Column :=
  { c with not_null := true, primary_key := true }

def colCheck (c : Column) (constraint : String) : Column :=
  { c with check := some constraint }

def colDefaultValue (c : Column) (value : String) : Column :=
  { c with default_val := some value }

/-- Column::generated sets the generated spec and clears default_val and primary_key. -/
def colGenerated (c : Column) (expr : String) (typ : GeneratedColumnType) : Column :=
  { c with generated := some { expr := expr, type_ := typ },
           default_val := none, primary_key := false }

/-- Display for Column. -/
def Column.toText (c : Column) : String :=
  c.name ++ " " ++ c.typ_
  ++ (if c.not_null then " NOT NULL" else "")
  ++ (if c.unique then " UNIQUE" else "")
  ++ (if c.primary_key then " PRIMARY KEY" else "")
  ++ (match c.default_val with | some v => " DEFAULT " ++ v | none => "")
  ++ (match c.check with | some ck => " CHECK(" ++ ck ++ ")" | none => "")
  ++ (match c.generated with
      | some g => " AS (" ++ g.expr ++ ") " ++ genTypeText g.type_
      | none => "")

/-- One public builder-method call on a Column. -/
inductive ColCall where
  | int
  | real
  | text
  | blob
  | nullable
  | uniq
  | primaryKey
  | check (s : String)
  | defaultValue (v : String)
  | generated (e : String) (t : GeneratedColumnType)
deriving DecidableEq

def applyColCall (c : Column) : ColCall → Column
  | .int => colInt c
  | .real => colReal c
  | .text => colText c
  | .blob => colBlob c
  | .nullable => colNullable c
  | .uniq => colUnique c
  | .primaryKey => colPrimaryKey c
  | .check s => colCheck c s
  | .defaultValue v => colDefaultValue c v
  | .generated e t => colGenerated c e t

/-- Run a chain of builder calls left to right. -/
def runCol : List ColCall → Column → Column
  | [], c => c
  | call :: rest, c => runCol rest (applyColCall c call)

/-! ## Check model (src/schema/check.rs) -/

structure Check where
  expression : String
deriving DecidableEq

def Check.new (constraint : String) : Check :=
  { expression := constraint }

/-- Display for Check, with the padding spaces the source emits. -/
def Check.toText (c : Check) : String :=
  " CHECK(" ++ c.expression ++ ") "

/-! ## ForeignKey model (src/schema/foreign_key.rs) -/

inductive ForeignKeyAction where
  | SetNull
  | SetDefault
  | Restrict
  | NoAction
  | Cascade
deriving DecidableEq

def ForeignKeyAction.to_str : ForeignKeyAction → String
  | .SetNull => "SET NULL"
  | .SetDefault => "SET DEFAULT"
  | .Restrict => "RESTRICT"
  | .NoAction => "NO ACTION"
  | .Cascade => "CASCADE"

structure ForeignKey where
  col : String
  ref_col : String
  ref_table : String
  delete_action : Option ForeignKeyAction
  update_action : Option ForeignKeyAction
deriving DecidableEq

/-- ForeignKey::new: delete action defaults to RESTRICT, update action absent. -/
def ForeignKey.new (col : String) : ForeignKey :=
  { col := col, ref_col := "", ref_table := "",
    delete_action := some .Restrict, update_action := none }

def ForeignKey.references (fk : ForeignKey) (table col : String) : ForeignKey :=
  { fk with ref_col := col, ref_table := table }

def ForeignKey.on_update (fk : ForeignKey) (action : ForeignKeyAction) : ForeignKey :=
  { fk with update_action := some action }

def ForeignKey.on_delete (fk : ForeignKey) (action : ForeignKeyAction) : ForeignKey :=
  { fk with delete_action := some action }

/-- Display for ForeignKey, with the padding spaces the source emits. -/
def ForeignKey.toText (fk : ForeignKey) : String :=
  " FOREIGN KEY (" ++ fk.col ++ ") REFERENCES " ++ fk.ref_table ++ " (" ++ fk.ref_col ++ ") "
  ++ (match fk.delete_action with
      | some a => "ON DELETE " ++ a.to_str ++ " "
      | none => "")
  ++ (match fk.update_action with
      | some a => "ON UPDATE " ++ a.to_str ++ " "
      | none => "")

/-- Modelled from the claim wording for C6: the same template without the
leading space and with single spaces between components. -/
def fkRenderPerClaim (fk : ForeignKey) : String :=
  "FOREIGN KEY (" ++ fk.col ++ ") REFERENCES " ++ fk.ref_table ++ " (" ++ fk.ref_col ++ ")"
  ++ (match fk.delete_action with
      | some a => " ON DELETE " ++ a.to_str
      | none => "")
  ++ (match fk.update_action with
      | some a => " ON UPDATE " ++ a.to_str
      | none => "")

/-- One public builder-method call on a ForeignKey. -/
inductive FKCall where
  | references (table col : String)
  | on_update (a : ForeignKeyAction)
  | on_delete (a : ForeignKeyAction)
deriving DecidableEq

def applyFKCall (fk : ForeignKey) : FKCall → ForeignKey
  | .references t c => fk.references t c
  | .on_update a => fk.on_update a
  | .on_delete a => fk.on_delete a

def runFK : List FKCall → ForeignKey → ForeignKey
  | [], fk => fk
  | call :: rest, fk => runFK rest (applyFKCall fk call)

/-- Last delete action set by a call chain, starting from a current value. -/
def lastDeleteAction : List FKCall → ForeignKeyAction → ForeignKeyAction
  | [], cur => cur
  | .on_delete a :: rest, _ => lastDeleteAction rest a
  | _ :: rest, cur => lastDeleteAction rest cur

/-- Last update action set by a call chain, starting from a current value. -/
def lastUpdateAction : List FKCall → Option ForeignKeyAction → Option ForeignKeyAction
  | [], cur => cur
  | .on_update a :: rest, _ => lastUpdateAction rest (some a)
  | _ :: rest, cur => lastUpdateAction rest cur

/-! ## Table model (src/schema/table.rs) -/

structure Table where
  name : String
  cols : List Column
  checks : List Check
  foreign_keys : List ForeignKey
deriving DecidableEq

def Table.new (name : String) : Table :=
  { name := name, cols := [], checks := [], foreign_keys := [] }

def create_table (name : String) : Table :=
  Table.new name

def Table.add_column (t : Table) (col : Column) : Table :=
  { t with cols := t.cols ++ [col] }

def Table.add_check (t : Table) (check : Check) : Table :=
  { t with checks := t.checks ++ [check] }

def Table.add_foreign_key (t : Table) (fk : ForeignKey) : Table :=
  { t with foreign_keys := t.foreign_keys ++ [fk] }

/-- Display for Table: columns, then checks, then foreign keys; the separator
before a category is emitted exactly when that category itself is nonempty. -/
def Table.toText (t : Table) : String :=
  "CREATE TABLE " ++ t.name ++ " IF NOT EXISTS (" ++ "\n"
  ++ joinSep (t.cols.map Column.toText) ",\n"
  ++ (if t.checks = [] then "" else ",\n")
  ++ joinSep (t.checks.map Check.toText) ",\n"
  ++ (if t.foreign_keys = [] then "" else ",\n")
  ++ joinSep (t.foreign_keys.map ForeignKey.toText) ",\n"
  ++ "\n);"

/-- Modelled from the claim wording for C4: all item strings joined by the
separator, so exactly N+M+K-1 separators between N+M+K items. -/
def tableRenderPerClaim (t : Table) : String :=
  "CREATE TABLE " ++ t.name ++ " IF NOT EXISTS (" ++ "\n"
  ++ joinSep (t.cols.map Column.toText ++ t.checks.map Check.toText
              ++ t.foreign_keys.map ForeignKey.toText) ",\n"
  ++ "\n);"

/-- DropTable from src/schema/table.rs. -/
structure DropTable where
  name : String
deriving DecidableEq

def drop_table (name : String) : DropTable :=
  { name := name }

def DropTable.toText (d : DropTable) : String :=
  "DROP TABLE " ++ d.name ++ ";"

/-! ## Trigger model (src/schema/triggers.rs) -/

inductive Action where
  | Before
  | After
  | InsteadOf
deriving DecidableEq

def actionText : Action → String
  | .After => "AFTER"
  | .Before => "BEFORE"
  | .InsteadOf => "INSTEAD OF"

inductive Event where
  | Insert
  | Update
  | Delete
deriving DecidableEq

def eventText : Event → String
  | .Delete => "DELETE"
  | .Insert => "INSERT"
  | .Update => "UPDATE"

inductive TriggerType where
  | Normal
  | Temporary
deriving DecidableEq

def typText : TriggerType → String
  | .Normal => ""
  | .Temporary => "TEMP "

structure Trigger where
  name : String
  table : String
  action : Action
  event : Event
  stmts : List String
  typ : TriggerType
  when : Option String
deriving DecidableEq

/-- Trigger::new via the create_trigger entry point. -/
def create_trigger (name : String) : Trigger :=
  { name := name, table := "", action := .Before, event := .Insert,
    stmts := [], typ := .Normal, when := none }

def trgOn (t : Trigger) (table : String) : Trigger := { t with table := table }

def trgBefore (t : Trigger) : Trigger := { t with action := .Before }

def trgAfter (t : Trigger) : Trigger := { t with action := .After }

def trgInsteadOf (t : Trigger) : Trigger := { t with action := .InsteadOf }

def trgInsert (t : Trigger) : Trigger := { t with event := .Insert }

def trgUpdate (t : Trigger) : Trigger := { t with event := .Update }

def trgDelete (t : Trigger) : Trigger := { t with event := .Delete }

def trgTemporary (t : Trigger) : Trigger := { t with typ := .Temporary }

def trgStatement (t : Trigger) (stmt : String) : Trigger :=
  { t with stmts := t.stmts ++ [stmt] }

def trgStatements (t : Trigger) (stmts : List String) : Trigger :=
  { t with stmts := t.stmts ++ stmts }

def trgWhen (t : Trigger) (expr : String) : Trigger :=
  { t with when := some expr }

/-- The body statement lines, one per statement, each semicolon-terminated. -/
def stmtLines : List String → String
  | [] => ""
  | s :: rest => s ++ ";" ++ "\n" ++ stmtLines rest

/-- Display for Trigger. -/
def Trigger.toText (t : Trigger) : String :=
  "CREATE " ++ typText t.typ ++ "TRIGGER IF NOT EXISTS " ++ t.name ++ " "
  ++ actionText t.action ++ " " ++ eventText t.event ++ " ON " ++ t.table ++ "\n"
  ++ (match t.when with | some w => "WHEN " ++ w ++ "\n" | none => "")
  ++ "BEGIN" ++ "\n"
  ++ stmtLines t.stmts
  ++ "END;"

/-- TriggerDrop from src/schema/triggers.rs. -/
structure TriggerDrop where
  name : String
deriving DecidableEq

def drop_trigger (name : String) : TriggerDrop :=
  { name := name }

def TriggerDrop.toText (d : TriggerDrop) : String :=
  "DROP TRIGGER IF EXISTS " ++ d.name ++ ";"

/-! ## View drop model (src/schema/view.rs) -/

structure ViewDrop where
  name : String
deriving DecidableEq

def drop_view (name : String) : ViewDrop :=
  { name := name }

def ViewDrop.toText (d : ViewDrop) : String :=
  "DROP VIEW IF EXISTS " ++ d.name ++ ";"

/-! ## Helper lemmas about string concatenation -/

theorem strMerge {a b c : String} (h : a ++ b = c) (s : String) :
    a ++ (b ++ s) = c ++ s := by
  rw [← String.append_assoc, h]

theorem append_ne_empty_left {a : String} (b : String) (h : a ≠ "") :
    a ++ b ≠ "" := by
  intro he
  apply h
  have hd : a.data ++ b.data = [] := by
    have := congrArg String.data he
    simpa using this
  exact String.ext (List.append_eq_nil.mp hd).1

theorem append_ne_empty_right (a : String) {b : String} (h : b ≠ "") :
    a ++ b ≠ "" := by
  intro he
  apply h
  have hd : a.data ++ b.data = [] := by
    have := congrArg String.data he
    simpa using this
  exact String.ext (List.append_eq_nil.mp hd).2

/-! ## Claim theorems -/

/-- C9: drop_table renders DROP TABLE name; with no IF EXISTS clause, while
drop_view and drop_trigger render with IF EXISTS, for every name. -/
theorem drop_render_if_exists_asymmetry (n : String) :
    (drop_table n).toText = "DROP TABLE " ++ n ++ ";"
    ∧ (drop_view n).toText = "DROP VIEW IF EXISTS " ++ n ++ ";"
    ∧ (drop_trigger n).toText = "DROP TRIGGER IF EXISTS " ++ n ++ ";" := by
  refine ⟨rfl, rfl, rfl⟩

/-- C2: the predicate accumulates by left-to-right textual append with AND and
OR separators and no parenthesization, and the sample chain renders exactly
the expected SELECT statement. -/
theorem select_where_chain_render (fs : List String) (t p q r : String) :
    (runSel (.from_ t (.where_ p (.and q (.or r .done)))) (select fs)).toText
      = "SELECT " ++ joinSep fs ", " ++ " FROM " ++ t
        ++ " WHERE " ++ p ++ " AND " ++ q ++ " OR " ++ r
    ∧ (runSel (.from_ "t" (.where_ "a=1" (.and "b=2" (.group_by ["a"]
        (.having "count>1" (.order_by "a" .done)))))) (select ["a", "b"])).toText
      = "SELECT a, b FROM t WHERE a=1 AND b=2 GROUP BY a HAVING count>1 ORDER BY a ASC" := by
  constructor
  · have hw : ((p ++ " AND " ++ q) ++ " OR " ++ r) ≠ "" := by
      apply append_ne_empty_left
      apply append_ne_empty_right
      decide
    simp only [runSel, runWhere, fromSet, whereSet, whereAnd, whereOr, select, RawQuery.init,
      RawQuery.toText]
    simp only [if_neg hw, if_pos rfl, Bool.false_eq_true, if_false, if_true]
    simp only [String.append_empty, String.empty_append, String.append_assoc]
    rw [strMerge (show ("SELECT" : String) ++ " " = "SELECT " by decide)]
  · decide

/-- C5: nullable clears not_null, primary_key and unique simultaneously, so a
column that was primary_key then nullable renders with neither PRIMARY KEY nor
NOT NULL; generated clears default_val and primary_key in the state, so a
prior default_value no longer appears in the output. -/
theorem column_nullable_and_generated_clear_flags (c : Column) (n v e : String)
    (k : GeneratedColumnType) :
    (colNullable c).not_null = false
    ∧ (colNullable c).primary_key = false
    ∧ (colNullable c).unique = false
    ∧ colNullable (colPrimaryKey c) = colNullable c
    ∧ Column.toText (colNullable (colPrimaryKey (Column.new n))) = n ++ " INTEGER"
    ∧ (colGenerated (colDefaultValue c v) e k).default_val = none
    ∧ (colGenerated (colDefaultValue c v) e k).primary_key = false
    ∧ colGenerated (colDefaultValue c v) e k = colGenerated c e k
    ∧ Column.toText (colGenerated (colDefaultValue (Column.new n) v) e k)
        = n ++ " INTEGER NOT NULL AS (" ++ e ++ ") " ++ genTypeText k := by
  refine ⟨rfl, rfl, rfl, rfl, ?_, rfl, rfl, rfl, ?_⟩
  · simp only [Column.new, colPrimaryKey, colNullable, Column.toText, Bool.false_eq_true,
      if_false, String.append_empty, String.append_assoc]
    rw [show (" " : String) ++ "INTEGER" = " INTEGER" by decide]
  · simp only [Column.new, colDefaultValue, colGenerated, Column.toText, if_true,
      Bool.false_eq_true, if_false, String.append_empty, String.append_assoc]
    rw [strMerge (show (" " : String) ++ "INTEGER" = " INTEGER" by decide),
      strMerge (show (" INTEGER" : String) ++ " NOT NULL" = " INTEGER NOT NULL" by decide),
      strMerge (show (" INTEGER NOT NULL" : String) ++ " AS (" = " INTEGER NOT NULL AS ("
        by decide)]

/-- The invariant of C10 as a predicate on column state. -/
def colInv (c : Column) : Prop :=
  (c.unique = true → c.not_null = true) ∧ (c.primary_key = true → c.not_null = true)

theorem applyColCall_colInv (c : Column) (call : ColCall) (h : colInv c) :
    colInv (applyColCall c call) := by
  cases call <;>
    simp only [applyColCall, colInt, colReal, colText, colBlob, colNullable, colUnique,
      colPrimaryKey, colCheck, colDefaultValue, colGenerated, colInv] at h ⊢ <;>
    simp_all

theorem runCol_colInv (calls : List ColCall) (c : Column) (h : colInv c) :
    colInv (runCol calls c) := by
  induction calls generalizing c with
  | nil => exact h
  | cons call rest ih => exact ih _ (applyColCall_colInv c call h)

/-- C10: unique and primary_key set not_null back to true, so on every column
reachable through the builder methods the unique or primary_key flag being set
forces the not_null flag; in particular nullable then unique renders with both
NOT NULL and UNIQUE. -/
theorem column_unique_or_pk_implies_not_null (n : String) (calls : List ColCall) :
    ((runCol calls (Column.new n)).unique = true ∨ (runCol calls (Column.new n)).primary_key = true
      → (runCol calls (Column.new n)).not_null = true)
    ∧ Column.toText (colUnique (colNullable (Column.new n))) = n ++ " INTEGER NOT NULL UNIQUE" := by
  constructor
  · intro h
    have hinv : colInv (runCol calls (Column.new n)) := by
      apply runCol_colInv
      exact ⟨fun hx => absurd hx (by simp [Column.new]), fun hx => absurd hx (by simp [Column.new])⟩
    rcases h with h | h
    · exact hinv.1 h
    · exact hinv.2 h
  · simp only [Column.new, colNullable, colUnique, Column.toText, if_true, Bool.false_eq_true,
      if_false, String.append_empty, String.append_assoc]
    rw [strMerge (show (" " : String) ++ "INTEGER" = " INTEGER" by decide),
      strMerge (show (" INTEGER" : String) ++ " NOT NULL" = " INTEGER NOT NULL" by decide)]
    rw [show (" INTEGER NOT NULL" : String) ++ " UNIQUE" = " INTEGER NOT NULL UNIQUE" by decide]

/-- C10 witness at the concrete input n equal to the string a and calls equal
to a single unique call. -/
theorem column_unique_or_pk_implies_not_null_witness :
    (runCol [ColCall.uniq] (Column.new "a")).not_null = true
    ∧ Column.toText (colUnique (colNullable (Column.new "a"))) = "a INTEGER NOT NULL UNIQUE" := by
  refine ⟨(column_unique_or_pk_implies_not_null "a" [ColCall.uniq]).1 (Or.inl rfl), ?_⟩
  exact ((column_unique_or_pk_implies_not_null "a" []).2).trans (by decide)

theorem setLastDir_append (xs : List (String × SortOrder)) (p : String × SortOrder)
    (d : SortOrder) : setLastDir (xs ++ [p]) d = xs ++ [(p.1, d)] := by
  induction xs with
  | nil => rfl
  | cons x xs ih =>
    cases xs with
    | nil => rfl
    | cons y ys =>
      simp only [List.cons_append, List.append_eq, setLastDir] at ih ⊢
      rw [ih]

/-- C8: asc and desc mutate the direction of the most recently appended sort
key only, last write wins, all earlier keys keep direction and position, and
order_by f then asc then desc renders the key as f DESC. -/
theorem order_by_asc_desc_last_write_wins (q : RawQuery) (f : String) (fs : List String)
    (t : String) :
    (ascLast (orderByPush q f)).sort_by = q.sort_by ++ [(f, SortOrder.Asc)]
    ∧ (descLast (orderByPush q f)).sort_by = q.sort_by ++ [(f, SortOrder.Desc)]
    ∧ (descLast (ascLast (orderByPush q f))).sort_by = q.sort_by ++ [(f, SortOrder.Desc)]
    ∧ (runSel (.order_by f (.asc (.desc .done))) (fromSet (select fs) t)).toText
        = "SELECT " ++ joinSep fs ", " ++ " FROM " ++ t ++ " ORDER BY " ++ f ++ " DESC" := by
  refine ⟨?_, ?_, ?_, ?_⟩
  · simp [ascLast, orderByPush, setLastDir_append]
  · simp [descLast, orderByPush, setLastDir_append]
  · simp [ascLast, descLast, orderByPush, setLastDir_append]
  · simp only [runSel, runOrder, fromSet, select, RawQuery.init, orderByPush, ascLast, descLast,
      List.nil_append, setLastDir, RawQuery.toText, sortByText, sortOrderText, joinSep,
      if_true, if_pos rfl, Bool.false_eq_true, if_false,
      String.append_empty, String.empty_append, String.append_assoc]
    rw [strMerge (show ("SELECT" : String) ++ " " = "SELECT " by decide)]
    rw [show (" " : String) ++ "DESC" = " DESC" by decide]
    rw [if_neg (by simp : ¬([(f, SortOrder.Desc)] = []))]

/-! C6 helpers: which actions a ForeignKey call chain sets. -/

def hasOnDelete : List FKCall → Bool
  | [] => false
  | .on_delete _ :: _ => true
  | _ :: rest => hasOnDelete rest

def hasOnUpdate : List FKCall → Bool
  | [] => false
  | .on_update _ :: _ => true
  | _ :: rest => hasOnUpdate rest

theorem runFK_delete_action_of_no_on_delete (calls : List FKCall) (fk : ForeignKey)
    (h : hasOnDelete calls = false) : (runFK calls fk).delete_action = fk.delete_action := by
  induction calls generalizing fk with
  | nil => rfl
  | cons call rest ih =>
    cases call with
    | references t c =>
      rw [show hasOnDelete (FKCall.references t c :: rest) = hasOnDelete rest from rfl] at h
      exact (ih _ h).trans rfl
    | on_update a =>
      rw [show hasOnDelete (FKCall.on_update a :: rest) = hasOnDelete rest from rfl] at h
      exact (ih _ h).trans rfl
    | on_delete a => exact absurd h (by simp [hasOnDelete])

theorem runFK_update_action_of_no_on_update (calls : List FKCall) (fk : ForeignKey)
    (h : hasOnUpdate calls = false) : (runFK calls fk).update_action = fk.update_action := by
  induction calls generalizing fk with
  | nil => rfl
  | cons call rest ih =>
    cases call with
    | references t c =>
      rw [show hasOnUpdate (FKCall.references t c :: rest) = hasOnUpdate rest from rfl] at h
      exact (ih _ h).trans rfl
    | on_delete a =>
      rw [show hasOnUpdate (FKCall.on_delete a :: rest) = hasOnUpdate rest from rfl] at h
      exact (ih _ h).trans rfl
    | on_update a => exact absurd h (by simp [hasOnUpdate])

/-- C6 counterexample: the rendered foreign key text carries a leading space
and trailing padding spaces, so it differs from the unpadded template the
claim states. -/
theorem foreign_key_render_claim_counterexample :
    ForeignKey.toText (ForeignKey.references (ForeignKey.new "c") "t" "r")
      ≠ fkRenderPerClaim (ForeignKey.references (ForeignKey.new "c") "t" "r") := by
  decide

/-- C6 amended: every ForeignKey renders as the claimed template with a
leading space before FOREIGN and a trailing space after the parenthesized
reference and after each action clause; an ON DELETE or ON UPDATE clause
appears exactly when the corresponding action is set, the ON UPDATE clause
shown rendered when an update action is set; a ForeignKey built by new has
delete action RESTRICT and no update action until on_delete or on_update set
one. -/
theorem foreign_key_render_and_defaults (c t r : String) (calls : List FKCall)
    (fk : ForeignKey) (a : ForeignKeyAction) :
    ForeignKey.toText (ForeignKey.references (ForeignKey.new c) t r)
      = " FOREIGN KEY (" ++ c ++ ") REFERENCES " ++ t ++ " (" ++ r ++ ") "
        ++ "ON DELETE RESTRICT "
    ∧ (ForeignKey.new c).delete_action = some ForeignKeyAction.Restrict
    ∧ (ForeignKey.new c).update_action = none
    ∧ (fk.on_delete a).delete_action = some a
    ∧ (fk.on_update a).update_action = some a
    ∧ (hasOnDelete calls = false
        → (runFK calls (ForeignKey.new c)).delete_action = some ForeignKeyAction.Restrict)
    ∧ (hasOnUpdate calls = false
        → (runFK calls (ForeignKey.new c)).update_action = none)
    ∧ (fk.update_action = none → ForeignKey.toText fk
        = " FOREIGN KEY (" ++ fk.col ++ ") REFERENCES " ++ fk.ref_table
          ++ " (" ++ fk.ref_col ++ ") "
          ++ (match fk.delete_action with
              | some a2 => "ON DELETE " ++ a2.to_str ++ " "
              | none => ""))
    ∧ ForeignKey.toText fk
        = " FOREIGN KEY (" ++ fk.col ++ ") REFERENCES " ++ fk.ref_table
          ++ " (" ++ fk.ref_col ++ ") "
          ++ (match fk.delete_action with
              | some a2 => "ON DELETE " ++ a2.to_str ++ " "
              | none => "")
          ++ (match fk.update_action with
              | some a2 => "ON UPDATE " ++ a2.to_str ++ " "
              | none => "")
    ∧ ForeignKey.toText (ForeignKey.on_update (ForeignKey.references (ForeignKey.new c) t r) a)
        = " FOREIGN KEY (" ++ c ++ ") REFERENCES " ++ t ++ " (" ++ r ++ ") "
          ++ "ON DELETE RESTRICT " ++ "ON UPDATE " ++ a.to_str ++ " " := by
  refine ⟨?_, rfl, rfl, rfl, rfl, ?_, ?_, ?_, rfl, ?_⟩
  · simp only [ForeignKey.new, ForeignKey.references, ForeignKey.toText,
      ForeignKeyAction.to_str, String.append_empty, String.append_assoc]
    rw [strMerge (show ("ON DELETE " : String) ++ "RESTRICT" = "ON DELETE RESTRICT" by decide)]
    rw [show ("ON DELETE RESTRICT" : String) ++ " " = "ON DELETE RESTRICT " by decide]
  · intro h
    exact (runFK_delete_action_of_no_on_delete calls _ h).trans rfl
  · intro h
    exact (runFK_update_action_of_no_on_update calls _ h).trans rfl
  · intro h
    simp only [ForeignKey.toText, h, String.append_empty]
  · simp only [ForeignKey.new, ForeignKey.references, ForeignKey.on_update, ForeignKey.toText,
      ForeignKeyAction.to_str, String.append_empty, String.append_assoc]
    rw [strMerge (show ("ON DELETE " : String) ++ "RESTRICT" = "ON DELETE RESTRICT" by decide)]
    rw [strMerge (show ("ON DELETE RESTRICT" : String) ++ " " = "ON DELETE RESTRICT "
      by decide)]

/-- C6 witness: the defaults survive an empty call chain and the conditional
parts are exercised at concrete inputs. -/
theorem foreign_key_render_and_defaults_witness :
    (runFK [] (ForeignKey.new "c")).delete_action = some ForeignKeyAction.Restrict
    ∧ (runFK [] (ForeignKey.new "c")).update_action = none := by
  have h := foreign_key_render_and_defaults "c" "t" "r" [] (ForeignKey.new "c")
    ForeignKeyAction.Restrict
  exact ⟨h.2.2.2.2.2.1 rfl, h.2.2.2.2.2.2.1 rfl⟩

theorem joinSep_append (A B : List String) (sep : String) (hA : A ≠ []) (hB : B ≠ []) :
    joinSep (A ++ B) sep = joinSep A sep ++ sep ++ joinSep B sep := by
  induction A with
  | nil => exact absurd rfl hA
  | cons a A ih =>
    cases A with
    | nil =>
      cases B with
      | nil => exact absurd rfl hB
      | cons b B => rfl
    | cons a2 A2 =>
      have h2 : joinSep ((a2 :: A2) ++ B) sep = joinSep (a2 :: A2) sep ++ sep ++ joinSep B sep :=
        ih (by simp)
      simp only [List.cons_append, List.append_eq, joinSep] at h2 ⊢
      rw [h2]
      simp [String.append_assoc]

/-- C4 counterexample: a table holding no columns and one check renders with a
leading separator, one separator for one single item, because the separator
before the checks block depends on the checks block itself being nonempty, not
on the preceding category. -/
theorem table_render_claim_counterexample :
    Table.toText (Table.add_check (create_table "t") (Check.new "x"))
      ≠ tableRenderPerClaim (Table.add_check (create_table "t") (Check.new "x")) := by
  decide

/-- C4 amended: for every table with at least one column, rendering joins the
N+M+K item strings of columns, checks and foreign keys with exactly N+M+K-1
comma-newline separators, wrapped between the CREATE TABLE header line and the
closing parenthesis line; when there are no columns and M+K is at least one,
an extra leading separator appears instead. -/
theorem table_render_joins_items (t : Table) (h : t.cols ≠ []) :
    Table.toText t = tableRenderPerClaim t := by
  have hc : t.cols.map Column.toText ≠ [] := by
    simpa using h
  unfold Table.toText tableRenderPerClaim
  by_cases hch : t.checks = [] <;> by_cases hfk : t.foreign_keys = []
  · simp [hch, hfk, joinSep]
  · have hf : t.foreign_keys.map ForeignKey.toText ≠ [] := by simpa using hfk
    rw [if_pos hch, if_neg hfk, hch]
    simp only [List.map_nil, List.append_nil, List.nil_append, joinSep, String.append_empty,
      String.empty_append]
    rw [joinSep_append _ _ _ hc hf]
    simp [String.append_assoc]
  · have hc2 : t.checks.map Check.toText ≠ [] := by simpa using hch
    rw [if_neg hch, if_pos hfk, hfk]
    simp only [List.map_nil, List.append_nil, joinSep, String.append_empty]
    rw [joinSep_append _ _ _ hc hc2]
    simp [String.append_assoc]
  · have hc2 : t.checks.map Check.toText ≠ [] := by simpa using hch
    have hf : t.foreign_keys.map ForeignKey.toText ≠ [] := by simpa using hfk
    rw [if_neg hch, if_neg hfk]
    rw [joinSep_append _ _ _
        (by simp [hc] : t.cols.map Column.toText ++ t.checks.map Check.toText ≠ []) hf,
      joinSep_append _ _ _ hc hc2]
    simp [String.append_assoc]

/-- C4 witness at a concrete single-column table. -/
theorem table_render_joins_items_witness :
    Table.toText (Table.add_column (create_table "t") (Column.new "id"))
      = tableRenderPerClaim (Table.add_column (create_table "t") (Column.new "id")) :=
  table_render_joins_items _ (by decide)

/-- The trigger built in the source tests: a WHEN clause and two body
statements, reached through the staged builder chain. -/
def trgC3 : Trigger :=
  trgStatement (trgStatement (trgWhen (trgOn (trgDelete (trgAfter
    (create_trigger "MyTrigger"))) "table") "x < y") "stmt0") "stmt1"

/-- Number of lines of a rendered statement: newline count plus one. -/
def lineCount (s : String) : Nat :=
  s.data.count '\n' + 1

/-- C3 counterexample: a trigger with a WHEN clause and two body statements
renders as six lines, not five. -/
theorem trigger_five_line_counterexample :
    lineCount (Trigger.toText trgC3) ≠ 5 := by
  decide

/-- C3 amended: a trigger with a WHEN clause and exactly two body statements
renders as a six-line string in the fixed order header line, WHEN line, BEGIN
line, one semicolon-terminated line per body statement in insertion order,
then the END line. -/
theorem trigger_when_two_statements_render (t : Trigger) (w s1 s2 : String)
    (hw : t.when = some w) (hs : t.stmts = [s1, s2]) :
    Trigger.toText t
      = "CREATE " ++ typText t.typ ++ "TRIGGER IF NOT EXISTS " ++ t.name ++ " "
        ++ actionText t.action ++ " " ++ eventText t.event ++ " ON " ++ t.table ++ "\n"
        ++ "WHEN " ++ w ++ "\n" ++ "BEGIN" ++ "\n"
        ++ s1 ++ ";" ++ "\n" ++ s2 ++ ";" ++ "\n" ++ "END;"
    ∧ lineCount (Trigger.toText trgC3) = 6 := by
  constructor
  · rw [Trigger.toText, hw, hs]
    simp [stmtLines, String.append_assoc]
    rw [strMerge (show ("\n" : String) ++ "WHEN " = "\nWHEN " by decide)]
  · decide

/-- C3 witness at the concrete trigger of the source tests. -/
theorem trigger_when_two_statements_render_witness :
    Trigger.toText trgC3
      = "CREATE TRIGGER IF NOT EXISTS MyTrigger AFTER DELETE ON table\nWHEN x < y\nBEGIN\nstmt0;\nstmt1;\nEND;" := by
  rw [(trigger_when_two_statements_render trgC3 "x < y" "stmt0" "stmt1" rfl rfl).1]
  decide

/-! C1 and C7 helpers. -/

theorem toText_eq_clausesInOrder (q : RawQuery) :
    q.toText = strConcat (selectClausesInOrder q) := by
  unfold RawQuery.toText selectClausesInOrder
  by_cases h1 : q.where_ = "" <;> by_cases h2 : q.group_by = "" <;>
    by_cases h3 : q.having = "" <;> by_cases h4 : q.sort_by = [] <;>
    cases hd : q.distinct <;> cases hl : q.limit <;> cases ho : q.offset <;>
    simp [h1, h2, h3, h4, strConcat, String.append_assoc]

/-- C1 corrected form: every builder value reachable from select by any valid
sequence of stage calls renders as the concatenation, in the fixed SELECT,
FROM, WHERE, GROUP BY, HAVING, ORDER BY, LIMIT, OFFSET order, of its present
clauses; SELECT and FROM are emitted unconditionally, the other six clauses
only when nonempty or set, independent of the order of attachment. -/
theorem select_render_fixed_clause_order (fields : List String) (p : SelProg) :
    (runSel p (select fields)).toText
      = strConcat (selectClausesInOrder (runSel p (select fields))) :=
  toText_eq_clausesInOrder _

/-- C1 counterexample: a builder on which from was never called still emits
the FROM keyword with empty text, so the empty FROM clause is not omitted. -/
theorem select_render_omit_empty_counterexample :
    (runSel SelProg.done (select ["a"])).toText
      ≠ selectRenderPerClaim (runSel SelProg.done (select ["a"])) := by
  decide

/-- Whether a SelectQuery-stage call sequence ever calls limit; limit is only
callable on the SelectQuery stage, so later stages never add one. -/
def selHasLimit : SelProg → Bool
  | .done => false
  | .from_ _ k => selHasLimit k
  | .distinct k => selHasLimit k
  | .limit _ _ => true
  | .offset _ k => selHasLimit k
  | .where_ _ _ => false
  | .group_by _ _ => false
  | .order_by _ _ => false

/-- Whether a SelectQuery-stage call sequence ever calls offset. -/
def selHasOffset : SelProg → Bool
  | .done => false
  | .from_ _ k => selHasOffset k
  | .distinct k => selHasOffset k
  | .limit _ k => selHasOffset k
  | .offset _ _ => true
  | .where_ _ _ => false
  | .group_by _ _ => false
  | .order_by _ _ => false

theorem runOrder_keeps_limit_offset (p : OrderProg) (q : RawQuery) :
    (runOrder p q).limit = q.limit ∧ (runOrder p q).offset = q.offset := by
  induction p generalizing q with
  | done => exact ⟨rfl, rfl⟩
  | asc k ih => exact ih _
  | desc k ih => exact ih _
  | order_by f k ih => exact ih _

theorem runHaving_keeps_limit_offset (p : HavingProg) (q : RawQuery) :
    (runHaving p q).limit = q.limit ∧ (runHaving p q).offset = q.offset := by
  induction p generalizing q with
  | done => exact ⟨rfl, rfl⟩
  | and c k ih => exact ih _
  | or c k ih => exact ih _
  | order_by f k => exact runOrder_keeps_limit_offset k _

theorem runGroup_keeps_limit_offset (p : GroupProg) (q : RawQuery) :
    (runGroup p q).limit = q.limit ∧ (runGroup p q).offset = q.offset := by
  cases p with
  | done => exact ⟨rfl, rfl⟩
  | having c k => exact runHaving_keeps_limit_offset k _
  | order_by f k => exact runOrder_keeps_limit_offset k _

theorem runWhere_keeps_limit_offset (p : WhereProg) (q : RawQuery) :
    (runWhere p q).limit = q.limit ∧ (runWhere p q).offset = q.offset := by
  induction p generalizing q with
  | done => exact ⟨rfl, rfl⟩
  | and c k ih => exact ih _
  | or c k ih => exact ih _
  | group_by fs k => exact runGroup_keeps_limit_offset k _
  | order_by f k => exact runOrder_keeps_limit_offset k _

theorem runSel_limit_none_iff (p : SelProg) (q : RawQuery) :
    (runSel p q).limit = none ↔ (q.limit = none ∧ selHasLimit p = false) := by
  induction p generalizing q with
  | done => simp [runSel, selHasLimit]
  | from_ t k ih =>
    rw [show runSel (.from_ t k) q = runSel k (fromSet q t) from rfl, ih (fromSet q t)]
    simp [fromSet, selHasLimit]
  | distinct k ih =>
    rw [show runSel (.distinct k) q = runSel k (distinctSet q) from rfl, ih (distinctSet q)]
    simp [distinctSet, selHasLimit]
  | limit v k ih =>
    rw [show runSel (.limit v k) q = runSel k (limitSet q v) from rfl, ih (limitSet q v)]
    simp [limitSet, selHasLimit]
  | offset v k ih =>
    rw [show runSel (.offset v k) q = runSel k (offsetSet q v) from rfl, ih (offsetSet q v)]
    simp [offsetSet, selHasLimit]
  | where_ c k =>
    rw [show runSel (.where_ c k) q = runWhere k (whereSet q c) from rfl,
      (runWhere_keeps_limit_offset k (whereSet q c)).1]
    simp [whereSet, selHasLimit]
  | group_by fs k =>
    rw [show runSel (.group_by fs k) q = runGroup k (groupBySet q fs) from rfl,
      (runGroup_keeps_limit_offset k (groupBySet q fs)).1]
    simp [groupBySet, selHasLimit]
  | order_by f k =>
    rw [show runSel (.order_by f k) q = runOrder k (orderByPush q f) from rfl,
      (runOrder_keeps_limit_offset k (orderByPush q f)).1]
    simp [orderByPush, selHasLimit]

theorem runSel_offset_none_iff (p : SelProg) (q : RawQuery) :
    (runSel p q).offset = none ↔ (q.offset = none ∧ selHasOffset p = false) := by
  induction p generalizing q with
  | done => simp [runSel, selHasOffset]
  | from_ t k ih =>
    rw [show runSel (.from_ t k) q = runSel k (fromSet q t) from rfl, ih (fromSet q t)]
    simp [fromSet, selHasOffset]
  | distinct k ih =>
    rw [show runSel (.distinct k) q = runSel k (distinctSet q) from rfl, ih (distinctSet q)]
    simp [distinctSet, selHasOffset]
  | limit v k ih =>
    rw [show runSel (.limit v k) q = runSel k (limitSet q v) from rfl, ih (limitSet q v)]
    simp [limitSet, selHasOffset]
  | offset v k ih =>
    rw [show runSel (.offset v k) q = runSel k (offsetSet q v) from rfl, ih (offsetSet q v)]
    simp [offsetSet, selHasOffset]
  | where_ c k =>
    rw [show runSel (.where_ c k) q = runWhere k (whereSet q c) from rfl,
      (runWhere_keeps_limit_offset k (whereSet q c)).2]
    simp [whereSet, selHasOffset]
  | group_by fs k =>
    rw [show runSel (.group_by fs k) q = runGroup k (groupBySet q fs) from rfl,
      (runGroup_keeps_limit_offset k (groupBySet q fs)).2]
    simp [groupBySet, selHasOffset]
  | order_by f k =>
    rw [show runSel (.order_by f k) q = runOrder k (orderByPush q f) from rfl,
      (runOrder_keeps_limit_offset k (orderByPush q f)).2]
    simp [orderByPush, selHasOffset]

/-- C7: limit None and limit Some n both cause a LIMIT clause, None as the ?
placeholder and Some n as the decimal value; the same for offset; the clause
is absent exactly when limit or offset was never called. -/
theorem limit_offset_placeholder_and_presence (fields : List String) (t : String) (n : Nat)
    (q : RawQuery) (p : SelProg) :
    (limitSet q (some n)).limit = some (toString n)
    ∧ (limitSet q none).limit = some "?"
    ∧ (offsetSet q (some n)).offset = some (toString n)
    ∧ (offsetSet q none).offset = some "?"
    ∧ (runSel (.limit (some n) (.from_ t .done)) (select fields)).toText
        = "SELECT " ++ joinSep fields ", " ++ " FROM " ++ t ++ " LIMIT " ++ toString n
    ∧ (runSel (.limit none (.from_ t .done)) (select fields)).toText
        = "SELECT " ++ joinSep fields ", " ++ " FROM " ++ t ++ " LIMIT ?"
    ∧ (runSel (.offset (some n) (.from_ t .done)) (select fields)).toText
        = "SELECT " ++ joinSep fields ", " ++ " FROM " ++ t ++ " OFFSET " ++ toString n
    ∧ (runSel (.offset none (.from_ t .done)) (select fields)).toText
        = "SELECT " ++ joinSep fields ", " ++ " FROM " ++ t ++ " OFFSET ?"
    ∧ ((runSel p (select fields)).limit = none ↔ selHasLimit p = false)
    ∧ ((runSel p (select fields)).offset = none ↔ selHasOffset p = false) := by
  refine ⟨rfl, rfl, rfl, rfl, ?_, ?_, ?_, ?_, ?_, ?_⟩
  · simp only [runSel, limitSet, fromSet, select, RawQuery.init, RawQuery.toText,
      if_pos rfl, Bool.false_eq_true, if_false, if_true,
      String.append_empty, String.empty_append, String.append_assoc]
    rw [strMerge (show ("SELECT" : String) ++ " " = "SELECT " by decide)]
  · simp only [runSel, limitSet, fromSet, select, RawQuery.init, RawQuery.toText,
      if_pos rfl, Bool.false_eq_true, if_false, if_true,
      String.append_empty, String.empty_append, String.append_assoc]
    rw [strMerge (show ("SELECT" : String) ++ " " = "SELECT " by decide)]
    rw [show (" LIMIT " : String) ++ "?" = " LIMIT ?" by decide]
  · simp only [runSel, offsetSet, fromSet, select, RawQuery.init, RawQuery.toText,
      if_pos rfl, Bool.false_eq_true, if_false, if_true,
      String.append_empty, String.empty_append, String.append_assoc]
    rw [strMerge (show ("SELECT" : String) ++ " " = "SELECT " by decide)]
  · simp only [runSel, offsetSet, fromSet, select, RawQuery.init, RawQuery.toText,
      if_pos rfl, Bool.false_eq_true, if_false, if_true,
      String.append_empty, String.empty_append, String.append_assoc]
    rw [strMerge (show ("SELECT" : String) ++ " " = "SELECT " by decide)]
    rw [show (" OFFSET " : String) ++ "?" = " OFFSET ?" by decide]
  · rw [runSel_limit_none_iff p (select fields)]
    simp [select, RawQuery.init]
  · rw [runSel_offset_none_iff p (select fields)]
    simp [select, RawQuery.init]

end Yaqub
